import Mathlib

-- Verification development for the news_bot repository: a shallow embedding of
-- the ingestion/processing pipeline (repository operations, validation chain,
-- retry policy, source-fetch orchestrator and cycle orchestrator) together with
-- theorems settling the specification claims.

namespace NewsBot

/-- Python str truthiness-relevant whitespace test (ASCII whitespace characters
stripped by str.strip with no arguments). -/
def pyIsSpace (c : Char) : Bool :=
  c = ' ' || c = '\t' || c = '\n' || c = '\r' || c = '\x0b' || c = '\x0c'

/-- Embedding of Python str.strip(): drop leading and trailing whitespace. -/
def pyStrip (s : String) : String :=
  String.mk (((s.toList.dropWhile pyIsSpace).reverse.dropWhile pyIsSpace).reverse)

/-- Substring test on character lists, used to embed the Python operator
needle in hay on strings. -/
def isSubList (n : List Char) : List Char → Bool
  | [] => n.isEmpty
  | c :: t => n.isPrefixOf (c :: t) || isSubList n t

/-- Embedding of Python substring containment needle in hay. -/
def pyIn (needle hay : String) : Bool :=
  isSubList needle.toList hay.toList

/-- UTF-8 encoding of one Unicode scalar value, as Python str.encode does. -/
def utf8EncodeChar (n : Nat) : List Nat :=
  if n < 128 then [n]
  else if n < 2048 then [192 ||| (n >>> 6), 128 ||| (n &&& 63)]
  else if n < 65536 then
    [224 ||| (n >>> 12), 128 ||| ((n >>> 6) &&& 63), 128 ||| (n &&& 63)]
  else
    [240 ||| (n >>> 18), 128 ||| ((n >>> 12) &&& 63),
     128 ||| ((n >>> 6) &&& 63), 128 ||| (n &&& 63)]

/-- Embedding of Python str.encode with encoding utf-8: the byte sequence of a
string. -/
def utf8Encode (s : String) : List Nat :=
  s.toList.flatMap (fun c => utf8EncodeChar c.toNat)

namespace SHA256

-- Embedding of hashlib.sha256 (FIPS 180-4) over byte lists, with 32-bit words
-- represented as Nat reduced modulo 2^32.

def M32 : Nat := 4294967296

def rotr (n x : Nat) : Nat := ((x >>> n) ||| (x <<< (32 - n))) % M32

def smallSigma0 (x : Nat) : Nat := rotr 7 x ^^^ rotr 18 x ^^^ (x >>> 3)

def smallSigma1 (x : Nat) : Nat := rotr 17 x ^^^ rotr 19 x ^^^ (x >>> 10)

def bigSigma0 (x : Nat) : Nat := rotr 2 x ^^^ rotr 13 x ^^^ rotr 22 x

def bigSigma1 (x : Nat) : Nat := rotr 6 x ^^^ rotr 11 x ^^^ rotr 25 x

def ch (x y z : Nat) : Nat := (x &&& y) ^^^ ((x ^^^ 4294967295) &&& z)

def maj (x y z : Nat) : Nat := (x &&& y) ^^^ (x &&& z) ^^^ (y &&& z)

/-- The 64 SHA-256 round constants (fractional parts of the cube roots of the
first 64 primes). -/
def K : List Nat :=
  [1116352408, 1899447441, 3049323471, 3921009573, 961987163,
   1508970993, 2453635748, 2870763221, 3624381080, 310598401,
   607225278, 1426881987, 1925078388, 2162078206, 2614888103,
   3248222580, 3835390401, 4022224774, 264347078, 604807628,
   770255983, 1249150122, 1555081692, 1996064986, 2554220882,
   2821834349, 2952996808, 3210313671, 3336571891, 3584528711,
   113926993, 338241895, 666307205, 773529912, 1294757372,
   1396182291, 1695183700, 1986661051, 2177026350, 2456956037,
   2730485921, 2820302411, 3259730800, 3345764771, 3516065817,
   3600352804, 4094571909, 275423344, 430227734, 506948616,
   659060556, 883997877, 958139571, 1322822218, 1537002063,
   1747873779, 1955562222, 2024104815, 2227730452, 2361852424,
   2428436474, 2756734187, 3204031479, 3329325298]

/-- Working registers of the SHA-256 compression function. -/
structure Regs where
  a : Nat
  b : Nat
  c : Nat
  d : Nat
  e : Nat
  f : Nat
  g : Nat
  h : Nat

/-- Initial hash value (fractional parts of the square roots of the first 8
primes). -/
def initH : Regs :=
  ⟨1779033703, 3144134277, 1013904242, 2773480762,
   1359893119, 2600822924, 528734635, 1541459225⟩

/-- Extend the schedule-word list by n further words, each computed from the
words 2, 7, 15 and 16 positions back. -/
def extendSchedule : Nat → List Nat → List Nat
  | 0, w => w
  | n + 1, w =>
    let t := w.length
    extendSchedule n (w ++
      [(smallSigma1 (w.getD (t - 2) 0) + w.getD (t - 7) 0
        + smallSigma0 (w.getD (t - 15) 0) + w.getD (t - 16) 0) % M32])

/-- One round of the compression function. -/
def round (w k : Nat) (r : Regs) : Regs :=
  let t1 := (r.h + bigSigma1 r.e + ch r.e r.f r.g + k + w) % M32
  let t2 := (bigSigma0 r.a + maj r.a r.b r.c) % M32
  ⟨(t1 + t2) % M32, r.a, r.b, r.c, (r.d + t1) % M32, r.e, r.f, r.g⟩

/-- Compression of one 16-word block into the running hash state: extend the
block to the 64 schedule words, run the 64 rounds against the round constants,
and add the result into the state. -/
def compress (hs : Regs) (block : List Nat) : Regs :=
  let ws := extendSchedule 48 block
  let fin := (ws.zip K).foldl (fun r wk => round wk.1 wk.2 r) hs
  ⟨(hs.a + fin.a) % M32, (hs.b + fin.b) % M32, (hs.c + fin.c) % M32,
   (hs.d + fin.d) % M32, (hs.e + fin.e) % M32, (hs.f + fin.f) % M32,
   (hs.g + fin.g) % M32, (hs.h + fin.h) % M32⟩

/-- Group a byte list into big-endian 32-bit words. -/
def bytesToWords : List Nat → List Nat
  | b0 :: b1 :: b2 :: b3 :: rest =>
      (((b0 * 256 + b1) * 256 + b2) * 256 + b3) :: bytesToWords rest
  | _ => []

/-- Split a word list into 16-word blocks (padded input is always a whole
number of blocks). -/
def chunks16 : List Nat → List (List Nat)
  | w1 :: w2 :: w3 :: w4 :: w5 :: w6 :: w7 :: w8 :: w9 :: w10 :: w11 :: w12 ::
      w13 :: w14 :: w15 :: w16 :: rest =>
    [w1, w2, w3, w4, w5, w6, w7, w8, w9, w10, w11, w12, w13, w14, w15, w16] ::
      chunks16 rest
  | [] => []
  | l => [l]

/-- SHA-256 padding: append the 0x80 byte, zeros, and the 64-bit message bit
length. -/
def pad (msg : List Nat) : List Nat :=
  let bitLen := msg.length * 8
  let zeros := (64 - (msg.length + 9) % 64) % 64
  let lenBytes := (List.range 8).map (fun i => (bitLen >>> (8 * (7 - i))) % 256)
  msg ++ [128] ++ List.replicate zeros 0 ++ lenBytes

/-- SHA-256 digest of a byte list, as 32 output bytes. -/
def digestBytes (msg : List Nat) : List Nat :=
  let fin := (chunks16 (bytesToWords (pad msg))).foldl compress initH
  [fin.a, fin.b, fin.c, fin.d, fin.e, fin.f, fin.g, fin.h].flatMap
    (fun w => [(w >>> 24) % 256, (w >>> 16) % 256, (w >>> 8) % 256, w % 256])

/-- Lowercase hexadecimal character for a value below 16. -/
def hexChar (n : Nat) : Char :=
  if n < 10 then Char.ofNat (48 + n) else Char.ofNat (87 + n)

/-- Embedding of hashlib hexdigest: the digest bytes in lowercase hex. -/
def hexdigest (msg : List Nat) : String :=
  String.mk ((digestBytes msg).flatMap (fun b => [hexChar (b / 16), hexChar (b % 16)]))

end SHA256

/-- Embedding of core.interfaces.NewsStatus. -/
inductive NewsStatus where
  | parsed
  | processed
  | sent
  | failed
deriving DecidableEq, Repr

/-- Embedding of the value attribute of core.interfaces.NewsStatus. -/
def NewsStatus.value : NewsStatus → String
  | .parsed => "parsed"
  | .processed => "processed"
  | .sent => "sent"
  | .failed => "failed"

/-- Embedding of the core.interfaces.NewsItem dataclass. Timestamps are
abstracted as naturals; url is a string with the empty string standing for a
missing URL (Python falsy). -/
structure NewsItem where
  title : String
  content : String
  url : String
  source : String
  city : Option String := none
  published_date : Option Nat := none
  status : NewsStatus := .parsed
  id : Option Nat := none
  rephrased_content : Option String := none
  telegram_message_id : Option Nat := none
  created_date : Option Nat := none
deriving DecidableEq, Repr

/-- One row of the news table created by AsyncNewsRepository (see
infrastructure/database_repository.py). -/
structure StoredNews where
  id : Nat
  title : String
  content : String
  url : String
  source : String
  city : Option String
  original_hash : String
  rephrased_content : Option String
  published_date : Option Nat
  created_date : Nat
  status : NewsStatus
  telegram_message_id : Option Nat
deriving DecidableEq, Repr

/-- The news table plus the AUTOINCREMENT sequence of its INTEGER PRIMARY KEY
column: rows in creation order, and the next id SQLite will assign (never
reused after deletion because of AUTOINCREMENT). -/
structure Store where
  rows : List StoredNews
  seq : Nat
deriving DecidableEq, Repr

/-- Embedding of AsyncNewsRepository._generate_content_hash: sha256 hexdigest
of the UTF-8 bytes of the stripped title concatenated with the stripped
content. -/
def generate_content_hash (title content : String) : String :=
  SHA256.hexdigest (utf8Encode (pyStrip title ++ pyStrip content))

/-- Embedding of AsyncNewsRepository.news_exists: true when a row with the same
content hash exists, or the item has a (truthy) url and a row with the same
url exists; the hash query runs first. -/
def news_exists (store : Store) (news : NewsItem) : Bool :=
  let content_hash := generate_content_hash news.title news.content
  if store.rows.any (fun r => r.original_hash = content_hash) then true
  else if news.url ≠ "" && store.rows.any (fun r => r.url = news.url) then true
  else false

/-- Embedding of AsyncNewsRepository.save_news. The dbError flag models a
raised storage exception, which the except branch converts to None; now is the
CURRENT_TIMESTAMP default for created_date. Returns the updated table and the
Optional int result. -/
def save_news (store : Store) (news : NewsItem) (now : Nat) (dbError : Bool) :
    Store × Option Nat :=
  if news_exists store news then (store, none)
  else if dbError then (store, none)
  else
    let content_hash := generate_content_hash news.title news.content
    let row : StoredNews :=
      { id := store.seq, title := news.title, content := news.content,
        url := news.url, source := news.source, city := news.city,
        original_hash := content_hash, rephrased_content := none,
        published_date := news.published_date, created_date := now,
        status := news.status, telegram_message_id := none }
    ({ rows := store.rows ++ [row], seq := store.seq + 1 }, some store.seq)

/-- Embedding of AsyncNewsRepository.get_news_by_status: the rows with the
given status, in creation order (the table is kept in created_date order and
the query orders by created_date ASC), limited to limit rows. -/
def get_news_by_status (store : Store) (status : NewsStatus) (limit : Nat) :
    List StoredNews :=
  (store.rows.filter (fun r => r.status = status)).take limit

/-- Row transformer of the dynamically built UPDATE of
AsyncNewsRepository.update_news_status: the status column is always set; the
rephrased_content and telegram_message_id columns are set exactly when the
corresponding kwarg is present (outer Option), to the passed SQL value (inner
Option, none standing for NULL). -/
def applyUpdate (news_id : Nat) (status : NewsStatus)
    (rephrased_content : Option (Option String))
    (telegram_message_id : Option (Option Nat)) (r : StoredNews) : StoredNews :=
  if r.id = news_id then
    { r with
      status := status,
      rephrased_content :=
        match rephrased_content with
        | some v => v
        | none => r.rephrased_content,
      telegram_message_id :=
        match telegram_message_id with
        | some v => v
        | none => r.telegram_message_id }
  else r

/-- Embedding of AsyncNewsRepository.update_news_status. The dbError flag
models a raised storage exception (caught, returning False with no change);
otherwise the UPDATE touches every row matching the id and the returned Bool
is the rowcount > 0 test. -/
def update_news_status (store : Store) (news_id : Nat) (status : NewsStatus)
    (rephrased_content : Option (Option String))
    (telegram_message_id : Option (Option Nat)) (dbError : Bool) :
    Store × Bool :=
  if dbError then (store, false)
  else
    ({ store with
       rows := store.rows.map
         (applyUpdate news_id status rephrased_content telegram_message_id) },
     store.rows.any (fun r => r.id = news_id))

/-- Embedding of AsyncNewsRepository.cleanup_old_news: delete rows with status
sent and created_date before the cutoff; a storage error is caught and leaves
the table unchanged, returning 0. -/
def cleanup_old_news (store : Store) (cutoff : Nat) (dbError : Bool) :
    Store × Nat :=
  if dbError then (store, 0)
  else
    let keep := store.rows.filter
      (fun r => ¬(r.created_date < cutoff ∧ r.status = .sent))
    ({ store with rows := keep }, store.rows.length - keep.length)

/-- Well-formedness of the news table, guaranteed by SQLite: primary-key ids
are distinct and below the AUTOINCREMENT sequence value. -/
def WFStore (store : Store) : Prop :=
  (∀ r ∈ store.rows, r.id < store.seq) ∧ (store.rows.map (fun r => r.id)).Nodup

instance : DecidablePred WFStore := fun store => by
  unfold WFStore
  infer_instance

/-- Context word lists for one ambiguous region keyword (see
core/validation.py, RegionKeywordValidator). -/
structure AmbiguousContext where
  geographic_context : List String
  person_context : List String
deriving DecidableEq, Repr

/-- The ambiguous_keywords table of RegionKeywordValidator, verbatim from
core/validation.py. -/
def ambiguous_keywords : List (String × AmbiguousContext) :=
  [("пугачев",
    { geographic_context :=
        ["город", "районе", "области", "муниципальный", "администрация",
         "мэр", "жители"],
      person_context :=
        ["пугачева", "алла", "певица", "артистка", "интервью", "концерт",
         "песня", "госдума", "депутат"] }),
   ("маркс",
    { geographic_context :=
        ["город", "районе", "области", "муниципальный", "администрация",
         "мэр", "жители"],
      person_context :=
        ["карл", "философ", "капитал", "коммунизм", "марксизм", "теория"] }),
   ("энгельс",
    { geographic_context :=
        ["город", "районе", "области", "муниципальный", "администрация",
         "мэр", "жители"],
      person_context :=
        ["фридрих", "философ", "коммунизм", "маркс", "теория"] })]

/-- The unambiguous region-anchor phrases of the fallback branch in
RegionKeywordValidator._is_valid_regional_keyword. -/
def regionAnchors : List String := ["саратов", "саратовская область", "саратовский"]

/-- Embedding of RegionKeywordValidator._is_valid_regional_keyword. The text
argument is the lower-cased title-plus-content string built by validate. -/
def is_valid_regional_keyword (keyword text : String) : Bool :=
  match ambiguous_keywords.lookup keyword with
  | none => true
  | some ambiguous_data =>
    let geographic_found :=
      ambiguous_data.geographic_context.any (fun w => pyIn w text)
    let person_found :=
      ambiguous_data.person_context.any (fun w => pyIn w text)
    if geographic_found && !person_found then true
    else if person_found then false
    else if regionAnchors.any (fun w => pyIn w text) then true
    else false

/-- Configuration of RegionKeywordValidator: keyword lists, already
lower-cased as done in its constructor. -/
structure RegionKeywordValidator where
  keywords : List String
  exclude_keywords : List String
deriving DecidableEq, Repr

/-- Embedding of RegionKeywordValidator.validate over the lower-cased text of
an item (Python builds text as the lower-cased title-space-content string). -/
def RegionKeywordValidator.validateText (v : RegionKeywordValidator)
    (text : String) : Option String :=
  match v.exclude_keywords.find? (fun w => pyIn w text) with
  | some exclude_word => some ("News excluded due to keyword: " ++ exclude_word)
  | none =>
    let found_keywords := v.keywords.filter
      (fun kw => pyIn kw text && is_valid_regional_keyword kw text)
    if found_keywords.isEmpty then some "No relevant regional keywords found"
    else none

/-- A validator of the chain: core.validation.INewsValidator.validate returns
an optional rejection reason. -/
abbrev Validator := NewsItem → Option String

/-- Embedding of core.validation.NewsValidationChain. -/
structure NewsValidationChain where
  validators : List Validator

/-- The errors list accumulated by the loop of NewsValidationChain.validate:
every validator runs, and each returned reason is appended in chain order. -/
def NewsValidationChain.errors (c : NewsValidationChain) (news : NewsItem) :
    List String :=
  c.validators.foldl
    (fun errs v =>
      match v news with
      | some e => errs ++ [e]
      | none => errs) []

/-- Embedding of NewsValidationChain.validate: returns the raised
NewsValidationError message when the errors list is non-empty, none when the
call returns normally. -/
def NewsValidationChain.validate (c : NewsValidationChain) (news : NewsItem) :
    Option String :=
  let errors := c.errors news
  if errors.isEmpty then none
  else some ("Validation failed: " ++ String.intercalate "; " errors)

/-- Embedding of NewsValidationChain.is_valid. -/
def NewsValidationChain.is_valid (c : NewsValidationChain) (news : NewsItem) :
    Bool :=
  (c.validate news).isNone

/-- Embedding of core.retry.RetryConfig. Delays are rationals (Python floats
carry exact values for the configurations of interest); exceptions is the
isinstance test against the configured tuple of retryable exception types. -/
structure RetryConfig (E : Type) where
  max_attempts : Nat := 3
  base_delay : ℚ := 1
  max_delay : ℚ := 60
  exponential_base : ℚ := 2
  jitter : Bool := true
  exceptions : E → Bool

/-- Outcome of a retry-wrapped call: a returned value, a raised exception, or
the raise of the initial None last_exception (only reachable when
max_attempts is 0). -/
inductive RetryOutcome (E A : Type) where
  | ok (a : A)
  | err (e : E)
  | noAttempt
deriving DecidableEq, Repr

/-- Observable trace of one retry-wrapped execution: the outcome, how many
times the wrapped operation was invoked, and the delays slept between
successive attempts, in order. -/
structure RetryTrace (E A : Type) where
  outcome : RetryOutcome E A
  calls : Nat
  delays : List ℚ
deriving DecidableEq, Repr

/-- The attempt loop of core.retry.retry_async. The operation f is indexed by
the attempt number; jf is the random.random() draw used when jitter is on;
fuel is the number of loop iterations left. An exception outside the
configured retryable kinds is not caught by the except clause and propagates
at once; the last attempt re-raises the caught exception unchanged; earlier
retryable failures sleep min(base_delay * exponential_base ^ attempt,
max_delay), jittered when configured, then continue. -/
def retry_go {E A : Type} (cfg : RetryConfig E) (f : Nat → Except E A)
    (jf : Nat → ℚ) : Nat → Nat → RetryTrace E A
  | _, 0 => ⟨.noAttempt, 0, []⟩
  | attempt, fuel + 1 =>
    match f attempt with
    | .ok a => ⟨.ok a, 1, []⟩
    | .error e =>
      if cfg.exceptions e = false then ⟨.err e, 1, []⟩
      else if fuel = 0 then ⟨.err e, 1, []⟩
      else
        let d0 := min (cfg.base_delay * cfg.exponential_base ^ attempt) cfg.max_delay
        let d := if cfg.jitter then d0 * (1 / 2 + jf attempt / 2) else d0
        let rest := retry_go cfg f jf (attempt + 1) fuel
        ⟨rest.outcome, rest.calls + 1, d :: rest.delays⟩

/-- Embedding of core.retry.retry_async applied to an operation: runs the
attempt loop from attempt 0 with max_attempts iterations available. -/
def retry_async {E A : Type} (cfg : RetryConfig E) (f : Nat → Except E A)
    (jf : Nat → ℚ) : RetryTrace E A :=
  retry_go cfg f jf 0 cfg.max_attempts

/-- Embedding of core.interfaces.SourceConfig, restricted to the fields the
fetch orchestrator consults. -/
structure SourceConfig where
  name : String
  url : String
  city : String
  enabled : Bool := true
deriving DecidableEq, Repr

/-- Embedding of AsyncNewsParserService.parse_source: an unavailable source is
skipped with an empty result, and any exception from the circuit-breaker call
(including a breaker-open signal) is caught and converted to an empty result. -/
def parse_source (availability : Bool)
    (internalResult : Except String (List NewsItem)) : List NewsItem :=
  if !availability then []
  else
    match internalResult with
    | .ok items => items
    | .error _ => []

/-- Embedding of AsyncNewsParserService.parse_all_sources. taskResult gives
each per-source task's outcome as seen by asyncio.gather with
return_exceptions (an escaped exception becomes an error value). Returns the
validated merged news list together with the recorded failed source names. -/
def parse_all_sources (chain : NewsValidationChain)
    (sources : List SourceConfig)
    (taskResult : SourceConfig → Except String (List NewsItem)) :
    List NewsItem × List String :=
  let enabled_sources := sources.filter (fun s => s.enabled)
  let results := enabled_sources.map (fun s => (s.name, taskResult s))
  let all_news := results.foldl
    (fun acc r =>
      match r.2 with
      | .ok items => acc ++ items
      | .error _ => acc) []
  let failed_sources := results.foldl
    (fun acc r =>
      match r.2 with
      | .ok _ => acc
      | .error _ => acc ++ [r.1]) []
  let validated_news := all_news.filter (fun n => (chain.validate n).isNone)
  (validated_news, failed_sources)

/-- Embedding of core.interfaces.ProcessingResult. The wall-clock duration
field is not modelled (real time). -/
structure ProcessingResult where
  success : Bool
  processed_count : Nat
  failed_count : Nat
  errors : List String
deriving DecidableEq, Repr

/-- Embedding of HealthCheckerService.check_health: the three collaborator
checks run concurrently; a check that raises (error value, via gather with
return_exceptions) counts as unhealthy; overall is the conjunction of the
three results. Returned as the assoc list of the produced dict. -/
def check_health (db cp ns : Except Unit Bool) : List (String × Bool) :=
  let toBool : Except Unit Bool → Bool := fun r =>
    match r with
    | .ok b => b
    | .error _ => false
  let database := toBool db
  let content_processor := toBool cp
  let notification_service := toBool ns
  let overall := database && content_processor && notification_service
  [("database", database), ("content_processor", content_processor),
   ("notification_service", notification_service), ("overall", overall)]

/-- Embedding of Python str truthiness for an optional string (None and the
empty string are falsy). -/
def truthyOpt : Option String → Bool
  | none => false
  | some s => s ≠ ""

/-- Per-item oracle for one iteration of the NewsBotService._process_news_content
loop: the content processor call either raises (error) or returns an optional
string; post_raise models an exception from the event publish or the
rate-limit sleep after a successful status update, which the per-item except
branch converts into a FAILED update; upd_err1 and upd_err2 are storage errors
inside the first and second update_news_status call of the iteration. -/
structure ProcOracle where
  result : Except Unit (Option String)
  post_raise : Bool
  upd_err1 : Bool
  upd_err2 : Bool

/-- One iteration of the _process_news_content loop for the item with the
given id, returning the updated table and the processed_count increment. -/
def process_one (store : Store) (news_id : Nat) (o : ProcOracle) :
    Store × Nat :=
  match o.result with
  | .error _ =>
    ((update_news_status store news_id .failed none none o.upd_err1).1, 0)
  | .ok rephrased_content =>
    if truthyOpt rephrased_content then
      let upd := update_news_status store news_id .processed
        (some rephrased_content) none o.upd_err1
      let inc := if upd.2 then 1 else 0
      if o.post_raise then
        ((update_news_status upd.1 news_id .failed none none o.upd_err2).1, inc)
      else (upd.1, inc)
    else
      ((update_news_status store news_id .failed none none o.upd_err1).1, 0)

/-- Embedding of NewsBotService._process_news_content: read up to max_per_run
items with status parsed, then run the per-item loop over them; top_raise
models an exception from the initial read, caught by the outer except with a
0 result and no change. -/
def process_news_content (store : Store) (max_per_run : Nat)
    (oracle : Nat → ProcOracle) (top_raise : Bool) : Store × Nat :=
  if top_raise then (store, 0)
  else
    let unprocessed_news := get_news_by_status store .parsed max_per_run
    (unprocessed_news.map (fun r => r.id)).foldl
      (fun acc i =>
        let st := process_one acc.1 i (oracle i)
        (st.1, acc.2 + st.2)) (store, 0)

/-- Embedding of NewsBotService._parse_and_save_news over an already-parsed
item list: each item is saved; a save returning an id counts it; the event
publish after a successful save may raise but is caught per item and changes
nothing further. now and err index the per-save timestamp and storage-error
oracles by position; top_raise models parse_all_sources itself raising. -/
def parse_and_save_news (store : Store) (news_items : List NewsItem)
    (now : Nat → Nat) (err : Nat → Bool) (top_raise : Bool) : Store × Nat :=
  if top_raise then (store, 0)
  else
    news_items.enum.foldl
      (fun acc p =>
        let sv := save_news acc.1 p.2 (now p.1) (err p.1)
        (sv.1, acc.2 + (if sv.2.isSome then 1 else 0))) (store, 0)

/-- Embedding of NewsBotService._send_notifications. broadcaster is the
notification service send_multiple_news call, taking the (id, rephrased
content) pairs ready to send and returning (news_id, message_id, success)
triples; abort_after (some k) models an exception in the per-result event
publish after k results were handled, which the function-level except turns
into a 0 return after the first k updates were already committed; upd_err is
the per-id storage-error oracle of the status updates; top_raise models the
initial read raising. -/
def send_notifications (store : Store)
    (broadcaster : List (Nat × String) → List (Nat × Option Nat × Bool))
    (abort_after : Option Nat) (upd_err : Nat → Bool) (top_raise : Bool) :
    Store × Nat :=
  if top_raise then (store, 0)
  else
    let ready_news := get_news_by_status store .processed 5
    let news_to_send := (ready_news.filter
      (fun r => truthyOpt r.rephrased_content)).map
      (fun r => (r.id, r.rephrased_content.getD ""))
    if news_to_send.isEmpty then (store, 0)
    else
      let results := broadcaster news_to_send
      let acted :=
        match abort_after with
        | none => results
        | some k => results.take k
      let final := acted.foldl
        (fun acc r =>
          if r.2.2 then
            ((update_news_status acc.1 r.1 .sent none (some r.2.1)
                (upd_err r.1)).1, acc.2 + 1)
          else
            ((update_news_status acc.1 r.1 .failed none none
                (upd_err r.1)).1, acc.2)) (store, 0)
      match abort_after with
      | none => final
      | some _ => (final.1, 0)

/-- Oracles of one full cycle: collaborator health results, the parsed item
list and parser failure, the per-item transformation outcomes, the broadcaster
behaviour, the cleanup-hour gate and cutoff, and an optional critical error
raised after the stage sequence (statistics read or completion event). -/
structure CycleEnv where
  db_health : Except Unit Bool
  cp_health : Except Unit Bool
  ns_health : Except Unit Bool
  news_items : List NewsItem
  parse_top_raise : Bool
  save_now : Nat → Nat
  save_err : Nat → Bool
  max_news_per_run : Nat
  proc : Nat → ProcOracle
  proc_top_raise : Bool
  broadcaster : List (Nat × String) → List (Nat × Option Nat × Bool)
  send_abort : Option Nat
  send_upd_err : Nat → Bool
  send_top_raise : Bool
  is_cleanup_hour : Bool
  cleanup_cutoff : Nat
  cleanup_err : Bool
  critical : Option String

/-- Embedding of NewsBotService.run_full_cycle: the health gate returns a
failed result before any other work; otherwise the parse-and-save, content
processing, notification and (when the hour matches) cleanup stages run in
order, and the result aggregates their counts, with a trailing critical error
caught into a failed result. -/
def run_full_cycle (store : Store) (env : CycleEnv) :
    Store × ProcessingResult :=
  let health_status := check_health env.db_health env.cp_health env.ns_health
  if ((health_status.lookup "overall").getD false) = false then
    (store, ⟨false, 0, 0, ["Health check failed, skipping cycle"]⟩)
  else
    let st1 := parse_and_save_news store env.news_items env.save_now
      env.save_err env.parse_top_raise
    let st2 := process_news_content st1.1 env.max_news_per_run env.proc
      env.proc_top_raise
    let st3 := send_notifications st2.1 env.broadcaster env.send_abort
      env.send_upd_err env.send_top_raise
    let st4 :=
      if env.is_cleanup_hour then
        cleanup_old_news st3.1 env.cleanup_cutoff env.cleanup_err
      else (st3.1, 0)
    match env.critical with
    | some e =>
      (st4.1, ⟨false, 0, 1, ["Critical error in full cycle: " ++ e]⟩)
    | none =>
      (st4.1, ⟨true, st1.2 + st2.2 + st3.2, 0, []⟩)

/-- The broadcaster contract of the notification service (spec section 6):
one result per input item, uniquely identifiable by item id — result ids are
distinct and drawn from the input ids. -/
def GoodBroadcaster
    (b : List (Nat × String) → List (Nat × Option Nat × Bool)) : Prop :=
  ∀ inp, ((b inp).map (fun r => r.1)).Nodup ∧
    ∀ r ∈ b inp, r.1 ∈ inp.map (fun p => p.1)

/-- The repository-mutating operations the pipeline issues, as a step relation
on the stored table: one parse-and-save stage, one content-processing stage,
one notification stage (under the broadcaster contract), or one cleanup run,
each with arbitrary oracles. A full run_full_cycle is a composition of these
steps. -/
inductive CycleStep : Store → Store → Prop where
  | parseSave (store : Store) (items : List NewsItem) (now : Nat → Nat)
      (err : Nat → Bool) (tr : Bool) :
      CycleStep store (parse_and_save_news store items now err tr).1
  | process (store : Store) (mpr : Nat) (oracle : Nat → ProcOracle) (tr : Bool) :
      CycleStep store (process_news_content store mpr oracle tr).1
  | send (store : Store)
      (b : List (Nat × String) → List (Nat × Option Nat × Bool))
      (abort : Option Nat) (uerr : Nat → Bool) (tr : Bool)
      (hb : GoodBroadcaster b) :
      CycleStep store (send_notifications store b abort uerr tr).1
  | cleanup (store : Store) (cutoff : Nat) (err : Bool) :
      CycleStep store (cleanup_old_news store cutoff err).1

/-- The status order of the item lifecycle: an item may move forward along
parsed, processed, sent; failed is reachable from parsed and processed and is
terminal. -/
def statusLE : NewsStatus → NewsStatus → Bool
  | .parsed, _ => true
  | .processed, .parsed => false
  | .processed, _ => true
  | .sent, .sent => true
  | .sent, _ => false
  | .failed, .failed => true
  | .failed, _ => false

/-- Evolution order on stored tables: the id sequence only grows, statuses of
surviving rows only move forward, failed rows are kept untouched, and a row
whose id predates the old sequence value traces back to an old row (ids are
never resurrected). -/
structure StoreLE (s t : Store) : Prop where
  seq_le : s.seq ≤ t.seq
  status_mono : ∀ r ∈ s.rows, ∀ r' ∈ t.rows, r.id = r'.id →
    statusLE r.status r'.status = true ∧ (r.status = .failed → r' = r)
  failed_kept : ∀ r ∈ s.rows, r.status = .failed → r ∈ t.rows
  no_resurrect : ∀ r' ∈ t.rows, r'.id < s.seq → ∃ r ∈ s.rows, r.id = r'.id

/-- A concrete stored row used by witnesses: its hash is the content
fingerprint of its own title and content, as save_news stores it. -/
def demoRow5 : StoredNews :=
  { id := 1, title := "A first headline", content := "Some body text here",
    url := "https://a.example/1", source := "feedA", city := none,
    original_hash := generate_content_hash "A first headline" "Some body text here",
    rephrased_content := none, published_date := none, created_date := 10,
    status := .parsed, telegram_message_id := none }

/-- A concrete one-row table used by witnesses. -/
def demoStore5 : Store := { rows := [demoRow5], seq := 2 }

/-- The ambiguous-keyword context table entry for пугачев, used by witnesses. -/
def demoCtx3 : AmbiguousContext :=
  (ambiguous_keywords.lookup "пугачев").getD ⟨[], []⟩

/-- A municipal text containing the ambiguous keyword with geographic context
only. -/
def textGeo3 : String := "администрация пугачев сообщает"

/-- A text about the singer: person context present together with geographic
context. -/
def textPerson3 : String := "певица пугачева дала интервью в городе"

/-- A context-free text containing the ambiguous keyword and no region
anchor. -/
def textPlain3 : String := "пугачев приехал"

/-- A two-validator chain in which every validator rejects, used by
witnesses. -/
def demoChain8 : NewsValidationChain :=
  ⟨[fun _ => some "first reason", fun _ => some "second reason"]⟩

/-- A concrete item for the validation-chain witness. -/
def demoNews8 : NewsItem :=
  { title := "Short title demo", content := "Some demo content", url := "",
    source := "feedA" }

/-- Concrete item collected from the first healthy source. -/
def demoItem7a : NewsItem :=
  { title := "News item from source A", content := "Content from A",
    url := "https://a.example/x", source := "srcA" }

/-- Concrete item collected from the second healthy source. -/
def demoItem7c : NewsItem :=
  { title := "News item from source C", content := "Content from C",
    url := "https://c.example/y", source := "srcC" }

/-- Three enabled sources, one of which will fail. -/
def demoSources7 : List SourceConfig :=
  [{ name := "srcA", url := "https://a.example", city := "CityA" },
   { name := "bad", url := "https://b.example", city := "CityB" },
   { name := "srcC", url := "https://c.example", city := "CityC" }]

/-- Per-source task outcomes: the source named bad raises a network timeout on
every attempt, the others return one item each. -/
def demoTask7 : SourceConfig → Except String (List NewsItem) := fun s =>
  if s.name = "bad" then .error "network timeout"
  else if s.name = "srcA" then .ok [demoItem7a]
  else .ok [demoItem7c]

/-- A chain with no validators: every item passes validation. -/
def demoChain7 : NewsValidationChain := ⟨[]⟩

/-- A two-row table holding one failed and one parsed item, used by the
lifecycle witness. -/
def demoStoreC1 : Store :=
  { rows :=
      [{ id := 1, title := "Old failed item", content := "Failed body",
         url := "", source := "feedA", city := none, original_hash := "h1",
         rephrased_content := none, published_date := none, created_date := 1,
         status := .failed, telegram_message_id := none },
       { id := 2, title := "Fresh parsed item", content := "Fresh body",
         url := "", source := "feedB", city := none, original_hash := "h2",
         rephrased_content := none, published_date := none, created_date := 2,
         status := .parsed, telegram_message_id := none }],
    seq := 3 }

/-- Cycle oracles in which the content-processor health probe reports
unavailable, used by the health-gate witness. -/
def demoEnv2 : CycleEnv :=
  { db_health := .ok true, cp_health := .ok false, ns_health := .ok true,
    news_items := [], parse_top_raise := false, save_now := fun _ => 0,
    save_err := fun _ => false, max_news_per_run := 10,
    proc := fun _ => ⟨.ok none, false, false, false⟩, proc_top_raise := false,
    broadcaster := fun _ => [], send_abort := none,
    send_upd_err := fun _ => false, send_top_raise := false,
    is_cleanup_hour := false, cleanup_cutoff := 0, cleanup_err := false,
    critical := none }

-- Basic facts about the repository operations.

theorem news_exists_iff (store : Store) (news : NewsItem) :
    news_exists store news = true ↔
      (∃ r ∈ store.rows,
        r.original_hash = generate_content_hash news.title news.content) ∨
      (news.url ≠ "" ∧ ∃ r ∈ store.rows, r.url = news.url) := by
  unfold news_exists
  split_ifs with h1 <;>
    simp_all [List.any_eq_true, not_and_or]

/-- C6: the content fingerprint is sha256 over exactly the trimmed title
concatenated with the trimmed body (no other normalization), hence it is a
deterministic function of the trimmed title and body: pairs equal after
stripping surrounding whitespace always produce the same fingerprint. -/
theorem C6_fingerprint_deterministic_trim_only :
    (∀ title content, generate_content_hash title content =
      SHA256.hexdigest (utf8Encode (pyStrip title ++ pyStrip content))) ∧
    (∀ t1 c1 t2 c2, pyStrip t1 = pyStrip t2 → pyStrip c1 = pyStrip c2 →
      generate_content_hash t1 c1 = generate_content_hash t2 c2) := by
  constructor
  · intro title content
    rfl
  · intro t1 c1 t2 c2 h1 h2
    unfold generate_content_hash
    rw [h1, h2]

/-- Witness for C6 at concrete strings differing only in surrounding
whitespace. -/
theorem C6_fingerprint_deterministic_trim_only_witness :
    pyStrip "  Big news today " = pyStrip "Big news today" ∧
    pyStrip "Something happened." = pyStrip " Something happened.  " ∧
    generate_content_hash "  Big news today " "Something happened." =
      generate_content_hash "Big news today" " Something happened.  " :=
  ⟨by decide, by decide,
    C6_fingerprint_deterministic_trim_only.2 "  Big news today "
      "Something happened." "Big news today" " Something happened.  "
      (by decide) (by decide)⟩

/-- C5: news_exists is true exactly when the content fingerprint already
exists in storage or the url is non-empty and already exists in storage; in
particular an item whose trimmed title and body match a stored row (with any
url and source) is reported as a duplicate, and an item sharing a stored row
url (with any content) is reported as a duplicate. -/
theorem C5_news_exists_duplicate_criterion (store : Store) (news : NewsItem) :
    (news_exists store news = true ↔
      (∃ r ∈ store.rows,
        r.original_hash = generate_content_hash news.title news.content) ∨
      (news.url ≠ "" ∧ ∃ r ∈ store.rows, r.url = news.url)) ∧
    (∀ r ∈ store.rows,
      r.original_hash = generate_content_hash r.title r.content →
      pyStrip news.title = pyStrip r.title →
      pyStrip news.content = pyStrip r.content →
      news_exists store news = true) ∧
    (∀ r ∈ store.rows, news.url ≠ "" → r.url = news.url →
      news_exists store news = true) := by
  refine ⟨news_exists_iff store news, ?_, ?_⟩
  · intro r hr hhash ht hc
    rw [news_exists_iff]
    left
    refine ⟨r, hr, ?_⟩
    rw [hhash]
    unfold generate_content_hash
    rw [ht, hc]
  · intro r hr hu hurl
    rw [news_exists_iff]
    right
    exact ⟨hu, r, hr, hurl⟩

/-- Witness for C5: a stored row is matched both by a trim-equal item with a
different url and source, and by a different-content item with the same url. -/
theorem C5_news_exists_duplicate_criterion_witness :
    demoRow5.original_hash =
      generate_content_hash demoRow5.title demoRow5.content ∧
    pyStrip " A first headline " = pyStrip demoRow5.title ∧
    pyStrip "Some body text here" = pyStrip demoRow5.content ∧
    news_exists demoStore5
      { title := " A first headline ", content := "Some body text here",
        url := "https://other.example/mirror", source := "feedB" } = true ∧
    news_exists demoStore5
      { title := "Unrelated title", content := "Unrelated body",
        url := "https://a.example/1", source := "feedB" } = true :=
  ⟨rfl, by decide, by decide,
    (C5_news_exists_duplicate_criterion demoStore5 _).2.1 demoRow5
      (by simp [demoStore5]) rfl (by decide) (by decide),
    (C5_news_exists_duplicate_criterion demoStore5 _).2.2 demoRow5
      (by simp [demoStore5]) (by decide) rfl⟩

theorem chain_errors_foldl (validators : List Validator) (news : NewsItem)
    (acc : List String) :
    validators.foldl
      (fun errs v =>
        match v news with
        | some e => errs ++ [e]
        | none => errs) acc
      = acc ++ validators.filterMap (fun v => v news) := by
  induction validators generalizing acc with
  | nil => simp
  | cons v rest ih =>
    cases h : v news <;> simp [List.foldl_cons, h, ih, List.filterMap_cons]

/-- C8: the validation chain runs every configured validator and aggregates
every reason in chain order: the accumulated error list is exactly the list of
reasons returned by the failing validators, the call returns normally (none)
exactly when every validator returns no reason, and otherwise the raised
message carries the full aggregated list. -/
theorem C8_validation_chain_aggregates (c : NewsValidationChain)
    (news : NewsItem) :
    c.errors news = c.validators.filterMap (fun v => v news) ∧
    (c.validate news = none ↔ ∀ v ∈ c.validators, v news = none) ∧
    (c.errors news ≠ [] →
      c.validate news = some
        ("Validation failed: " ++ String.intercalate "; " (c.errors news))) := by
  have herr : c.errors news = c.validators.filterMap (fun v => v news) :=
    chain_errors_foldl c.validators news []
  refine ⟨herr, ?_, ?_⟩
  · unfold NewsValidationChain.validate
    rw [herr]
    by_cases hvs : ∀ v ∈ c.validators, v news = none
    · rw [if_pos (by rw [List.isEmpty_iff]; exact List.filterMap_eq_nil_iff.2 hvs)]
      simpa using hvs
    · rw [if_neg (fun hemp =>
        hvs (List.filterMap_eq_nil_iff.1 (List.isEmpty_iff.1 hemp)))]
      simp [hvs]
  · intro hne
    unfold NewsValidationChain.validate
    rw [if_neg (fun hemp => hne (List.isEmpty_iff.1 hemp))]

/-- Witness for C8 on a two-validator chain in which both validators fail:
both reasons are reported, in order. -/
theorem C8_validation_chain_aggregates_witness :
    demoChain8.errors demoNews8 = ["first reason", "second reason"] ∧
    (demoChain8.validate demoNews8 = none ↔
      ∀ v ∈ demoChain8.validators, v demoNews8 = none) ∧
    demoChain8.errors demoNews8 ≠ [] :=
  ⟨by simp [demoChain8, demoNews8, NewsValidationChain.errors],
    (C8_validation_chain_aggregates demoChain8 demoNews8).2.1,
    by simp [demoChain8, demoNews8, NewsValidationChain.errors]⟩

/-- C3: decision table of the contextual disambiguation for an ambiguous
region keyword occurring in a text: geographic context without person context
accepts; any person context rejects, regardless of geographic context; with
neither context the match is accepted exactly when one of the unambiguous
region-anchor phrases occurs in the text. -/
theorem C3_ambiguous_keyword_disambiguation (kw text : String)
    (d : AmbiguousContext) (hlook : ambiguous_keywords.lookup kw = some d)
    (_hkw : pyIn kw text = true) :
    (d.geographic_context.any (fun w => pyIn w text) = true →
      d.person_context.any (fun w => pyIn w text) = false →
      is_valid_regional_keyword kw text = true) ∧
    (d.person_context.any (fun w => pyIn w text) = true →
      is_valid_regional_keyword kw text = false) ∧
    (d.geographic_context.any (fun w => pyIn w text) = false →
      d.person_context.any (fun w => pyIn w text) = false →
      (is_valid_regional_keyword kw text = true ↔
        regionAnchors.any (fun w => pyIn w text) = true)) := by
  unfold is_valid_regional_keyword
  rw [hlook]
  refine ⟨?_, ?_, ?_⟩
  · intro hgeo hper
    simp [hgeo, hper]
  · intro hper
    simp [hper]
  · intro hgeo hper
    cases hanc : regionAnchors.any (fun w => pyIn w text) <;>
      simp [hgeo, hper, hanc]

/-- Witness for C3 at the keyword пугачев: a municipal text is accepted, a
text about the singer is rejected even with geographic words present, and a
context-free text is decided by the region anchors. -/
theorem C3_ambiguous_keyword_disambiguation_witness :
    ambiguous_keywords.lookup "пугачев" = some demoCtx3 ∧
    pyIn "пугачев" textGeo3 = true ∧
    demoCtx3.geographic_context.any (fun w => pyIn w textGeo3) = true ∧
    demoCtx3.person_context.any (fun w => pyIn w textGeo3) = false ∧
    is_valid_regional_keyword "пугачев" textGeo3 = true ∧
    demoCtx3.person_context.any (fun w => pyIn w textPerson3) = true ∧
    is_valid_regional_keyword "пугачев" textPerson3 = false ∧
    demoCtx3.geographic_context.any (fun w => pyIn w textPlain3) = false ∧
    demoCtx3.person_context.any (fun w => pyIn w textPlain3) = false ∧
    regionAnchors.any (fun w => pyIn w textPlain3) = false ∧
    is_valid_regional_keyword "пугачев" textPlain3 = false :=
  ⟨by decide, by decide, by decide, by decide,
    (C3_ambiguous_keyword_disambiguation "пугачев" textGeo3 demoCtx3
      (by decide) (by decide)).1 (by decide) (by decide),
    by decide,
    (C3_ambiguous_keyword_disambiguation "пугачев" textPerson3 demoCtx3
      (by decide) (by decide)).2.1 (by decide),
    by decide, by decide, by decide,
    by rw [Bool.eq_false_iff]
       intro hvalid
       exact absurd
         (((C3_ambiguous_keyword_disambiguation "пугачев" textPlain3 demoCtx3
           (by decide) (by decide)).2.2 (by decide) (by decide)).1 hvalid)
         (by decide)⟩

/-- C4: with maxAttempts 3, baseDelay 1, exponentialBase 2, jitter off and a
retryable failure on every attempt, the operation is invoked exactly 3 times,
the slept delays are 1 then 2 (min(baseDelay * exponentialBase ^ k, maxDelay)
for k = 0, 1), and the failure raised is the last failure unchanged; a
non-retryable failure propagates unchanged after exactly one invocation with
no sleep. -/
theorem C4_retry_schedule {E A : Type} (ret : E → Bool) (es : Nat → E)
    (jf : Nat → ℚ) (M : ℚ) (hM : 2 ≤ M) (hret : ∀ k, ret (es k) = true) :
    (retry_async (A := A)
      { max_attempts := 3, base_delay := 1, max_delay := M,
        exponential_base := 2, jitter := false, exceptions := ret }
      (fun k => Except.error (es k)) jf
      = ⟨.err (es 2), 3, [1, 2]⟩) ∧
    (∀ (e0 : E) (f : Nat → Except E A) (ret2 : E → Bool),
      f 0 = .error e0 → ret2 e0 = false →
      retry_async
        { max_attempts := 3, base_delay := 1, max_delay := M,
          exponential_base := 2, jitter := false, exceptions := ret2 }
        f jf = ⟨.err e0, 1, []⟩) := by
  have hm1 : min ((1 : ℚ)) M = 1 := min_eq_left (le_trans (by norm_num) hM)
  have hm2 : min ((2 : ℚ)) M = 2 := min_eq_left hM
  constructor
  · simp [retry_async, retry_go, hret, pow_zero, pow_one, one_mul, hm1, hm2]
  · intro e0 f ret2 hf hr
    simp [retry_async, retry_go, hf, hr]

/-- Witness for C4 with Bool as the exception type: all-false exceptions are
retryable under the identity-complement test, while a true exception is not
retryable under the identity test. -/
theorem C4_retry_schedule_witness :
    (2 : ℚ) ≤ 60 ∧
    (∀ k : Nat, (fun e => !e) ((fun _ => false) k) = true) ∧
    (retry_async (A := Unit)
      { max_attempts := 3, base_delay := 1, max_delay := 60,
        exponential_base := 2, jitter := false, exceptions := fun e => !e }
      (fun _ => Except.error false) (fun _ => 0)
      = ⟨.err false, 3, [1, 2]⟩) ∧
    (retry_async (A := Unit)
      { max_attempts := 3, base_delay := 1, max_delay := 60,
        exponential_base := 2, jitter := false, exceptions := fun e => !e }
      (fun _ => Except.error true) (fun _ => 0) = ⟨.err true, 1, []⟩) :=
  ⟨by decide, fun k => rfl,
    (C4_retry_schedule (fun e => !e) (fun _ => false) (fun _ => 0) 60
      (by decide) (fun k => rfl)).1,
    (C4_retry_schedule (A := Unit) (fun e => !e) (fun _ => false) (fun _ => 0)
      60 (by decide) (fun k => rfl)).2 true (fun _ => Except.error true)
      (fun e => !e) rfl rfl⟩

theorem parse_collect_foldl (results : List (String × Except String (List NewsItem)))
    (acc : List NewsItem) :
    results.foldl
      (fun acc r =>
        match r.2 with
        | .ok items => acc ++ items
        | .error _ => acc) acc
      = acc ++ (results.filterMap (fun r => r.2.toOption)).flatten := by
  induction results generalizing acc with
  | nil => simp
  | cons hd tl ih =>
    cases h : hd.2 <;>
      simp [List.foldl_cons, h, ih, List.filterMap_cons, Except.toOption,
        List.append_assoc]

theorem parse_failed_foldl (results : List (String × Except String (List NewsItem)))
    (acc : List String) :
    results.foldl
      (fun acc r =>
        match r.2 with
        | .ok _ => acc
        | .error _ => acc ++ [r.1]) acc
      = acc ++ results.filterMap
          (fun r =>
            match r.2 with
            | .ok _ => none
            | .error _ => some r.1) := by
  induction results generalizing acc with
  | nil => simp
  | cons hd tl ih =>
    cases h : hd.2 <;>
      simp [List.foldl_cons, h, ih, List.filterMap_cons, List.append_assoc]

/-- C7: a raised failure in any subset of the per-source tasks never removes
another source's items: the merged result of parse_all_sources is exactly the
validated items of the succeeding enabled sources, each failing source
contributes nothing and is recorded in the per-source failure list, and the
function is total (the exception surfaces in no output other than the failure
record). -/
theorem C7_source_failure_isolation (chain : NewsValidationChain)
    (sources : List SourceConfig)
    (taskResult : SourceConfig → Except String (List NewsItem)) :
    ((parse_all_sources chain sources taskResult).1 =
      (((sources.filter (fun s => s.enabled)).filterMap
        (fun s => (taskResult s).toOption)).flatten).filter
        (fun n => (chain.validate n).isNone)) ∧
    ((parse_all_sources chain sources taskResult).2 =
      (sources.filter (fun s => s.enabled)).filterMap
        (fun s =>
          match taskResult s with
          | .ok _ => none
          | .error _ => some s.name)) ∧
    (∀ s ∈ sources.filter (fun s => s.enabled), ∀ items,
      taskResult s = .ok items → ∀ n ∈ items,
      (chain.validate n).isNone = true →
      n ∈ (parse_all_sources chain sources taskResult).1) ∧
    (∀ s ∈ sources.filter (fun s => s.enabled), ∀ e,
      taskResult s = .error e →
      s.name ∈ (parse_all_sources chain sources taskResult).2) := by
  have h1 : (parse_all_sources chain sources taskResult).1 =
      (((sources.filter (fun s => s.enabled)).filterMap
        (fun s => (taskResult s).toOption)).flatten).filter
        (fun n => (chain.validate n).isNone) := by
    unfold parse_all_sources
    simp only [parse_collect_foldl, List.nil_append, List.filterMap_map]
    rfl
  have h2 : (parse_all_sources chain sources taskResult).2 =
      (sources.filter (fun s => s.enabled)).filterMap
        (fun s =>
          match taskResult s with
          | .ok _ => none
          | .error _ => some s.name) := by
    unfold parse_all_sources
    simp only [parse_failed_foldl, List.nil_append, List.filterMap_map]
    rfl
  refine ⟨h1, h2, ?_, ?_⟩
  · intro s hs items hok n hn hv
    rw [h1]
    rw [List.mem_filter]
    refine ⟨?_, hv⟩
    rw [List.mem_flatten]
    refine ⟨items, ?_, hn⟩
    rw [List.mem_filterMap]
    exact ⟨s, hs, by rw [hok]; rfl⟩
  · intro s hs e herr
    rw [h2, List.mem_filterMap]
    exact ⟨s, hs, by rw [herr]⟩

/-- Witness for C7: of three enabled sources one raises a network timeout;
the other two sources' items are both present in the merged validated output,
the failing source contributes zero items, and its name is recorded as the
per-source failure. -/
theorem C7_source_failure_isolation_witness :
    demoTask7 { name := "bad", url := "https://b.example", city := "CityB" } =
      .error "network timeout" ∧
    parse_all_sources demoChain7 demoSources7 demoTask7 =
      ([demoItem7a, demoItem7c], ["bad"]) ∧
    demoItem7a ∈ (parse_all_sources demoChain7 demoSources7 demoTask7).1 ∧
    demoItem7c ∈ (parse_all_sources demoChain7 demoSources7 demoTask7).1 ∧
    "bad" ∈ (parse_all_sources demoChain7 demoSources7 demoTask7).2 :=
  ⟨rfl, by decide,
    (C7_source_failure_isolation demoChain7 demoSources7 demoTask7).2.2.1
      { name := "srcA", url := "https://a.example", city := "CityA" }
      (by decide) [demoItem7a] rfl demoItem7a (by decide) (by decide),
    (C7_source_failure_isolation demoChain7 demoSources7 demoTask7).2.2.1
      { name := "srcC", url := "https://c.example", city := "CityC" }
      (by decide) [demoItem7c] rfl demoItem7c (by decide) (by decide),
    (C7_source_failure_isolation demoChain7 demoSources7 demoTask7).2.2.2
      { name := "bad", url := "https://b.example", city := "CityB" }
      (by decide) "network timeout" rfl⟩

/-- C2: when the health checker reports overall health false, run_full_cycle
returns a failed result with zero processed and failed counts and exactly one
error message referencing the health check failure, and leaves the stored
table untouched: no parsing, saving, content processing, sending or cleanup
happens. -/
theorem C2_health_gate_aborts_cycle (store : Store) (env : CycleEnv)
    (h : (check_health env.db_health env.cp_health env.ns_health).lookup
      "overall" = some false) :
    run_full_cycle store env =
      (store, ⟨false, 0, 0, ["Health check failed, skipping cycle"]⟩) ∧
    (run_full_cycle store env).2.errors.length = 1 ∧
    pyIn "ealth check fail" ((run_full_cycle store env).2.errors.getD 0 "") =
      true := by
  have hr : run_full_cycle store env =
      (store, ⟨false, 0, 0, ["Health check failed, skipping cycle"]⟩) := by
    unfold run_full_cycle
    simp [h]
  refine ⟨hr, ?_, ?_⟩ <;> rw [hr] <;> rfl

/-- Witness for C2: the content transformer reports unavailable, overall
health is false, and the cycle aborts with the single health-check error and
an unchanged table. -/
theorem C2_health_gate_aborts_cycle_witness :
    (check_health demoEnv2.db_health demoEnv2.cp_health
      demoEnv2.ns_health).lookup "overall" = some false ∧
    run_full_cycle demoStore5 demoEnv2 =
      (demoStore5, ⟨false, 0, 0, ["Health check failed, skipping cycle"]⟩) :=
  ⟨by decide, (C2_health_gate_aborts_cycle demoStore5 demoEnv2 (by decide)).1⟩

theorem applyUpdate_id (i : Nat) (st : NewsStatus) (rc : Option (Option String))
    (tm : Option (Option Nat)) (r : StoredNews) :
    (applyUpdate i st rc tm r).id = r.id := by
  unfold applyUpdate
  split <;> rfl

theorem applyUpdate_of_ne (i : Nat) (st : NewsStatus)
    (rc : Option (Option String)) (tm : Option (Option Nat)) (r : StoredNews)
    (h : r.id ≠ i) : applyUpdate i st rc tm r = r := by
  unfold applyUpdate
  rw [if_neg h]

theorem update_rows_of_false (store : Store) (i : Nat) (st : NewsStatus)
    (rc : Option (Option String)) (tm : Option (Option Nat)) :
    (update_news_status store i st rc tm false).1.rows =
      store.rows.map (applyUpdate i st rc tm) := rfl

theorem update_seq (store : Store) (i : Nat) (st : NewsStatus)
    (rc : Option (Option String)) (tm : Option (Option Nat)) (e : Bool) :
    (update_news_status store i st rc tm e).1.seq = store.seq := by
  unfold update_news_status
  cases e <;> rfl

/-- C9: a status transition by update_news_status touches only the targeted
row, and on that row it sets the status and exactly the fields passed for the
transition: every surviving row keeps its title, content, url, source, city,
published_date, created_date and original_hash; rephrased_content and
telegram_message_id are kept unless the corresponding kwarg was passed; rows
with a different id — and every row when the call failed on a storage
error — are unchanged entirely, and no row is created or removed. -/
theorem C9_update_status_frame (store : Store) (news_id : Nat)
    (status : NewsStatus) (rc : Option (Option String))
    (tm : Option (Option Nat)) (e : Bool) :
    ((update_news_status store news_id status rc tm e).1.seq = store.seq) ∧
    ((update_news_status store news_id status rc tm e).1.rows.length =
      store.rows.length) ∧
    (∀ r' ∈ (update_news_status store news_id status rc tm e).1.rows,
      r'.id ≠ news_id → r' ∈ store.rows) ∧
    (∀ r ∈ store.rows, r.id ≠ news_id →
      r ∈ (update_news_status store news_id status rc tm e).1.rows) ∧
    (∀ r ∈ store.rows,
      ∃ r' ∈ (update_news_status store news_id status rc tm e).1.rows,
        r'.id = r.id ∧ r'.title = r.title ∧ r'.content = r.content ∧
        r'.url = r.url ∧ r'.source = r.source ∧ r'.city = r.city ∧
        r'.published_date = r.published_date ∧
        r'.created_date = r.created_date ∧
        r'.original_hash = r.original_hash ∧
        (rc = none → r'.rephrased_content = r.rephrased_content) ∧
        (tm = none → r'.telegram_message_id = r.telegram_message_id) ∧
        (e = true → r' = r) ∧
        (e = false → r.id = news_id → r'.status = status ∧
          r'.rephrased_content = rc.getD r.rephrased_content ∧
          r'.telegram_message_id = tm.getD r.telegram_message_id)) := by
  cases e with
  | true =>
    refine ⟨rfl, rfl, ?_, ?_, ?_⟩
    · intro r' hr' _
      exact hr'
    · intro r hr _
      exact hr
    · intro r hr
      exact ⟨r, hr, rfl, rfl, rfl, rfl, rfl, rfl, rfl, rfl, rfl,
        fun _ => rfl, fun _ => rfl, fun _ => rfl, fun h => absurd h (by simp)⟩
  | false =>
    rw [update_seq]
    refine ⟨rfl, ?_, ?_, ?_, ?_⟩
    · rw [update_rows_of_false, List.length_map]
    · intro r' hr' hne
      rw [update_rows_of_false] at hr'
      rcases List.mem_map.1 hr' with ⟨r, hr, hmap⟩
      have hid : r.id ≠ news_id := by
        intro hcon
        apply hne
        rw [← hmap, applyUpdate_id, hcon]
      rw [← hmap, applyUpdate_of_ne _ _ _ _ _ hid]
      exact hr
    · intro r hr hne
      rw [update_rows_of_false]
      have : applyUpdate news_id status rc tm r = r :=
        applyUpdate_of_ne _ _ _ _ _ hne
      rw [← this]
      exact List.mem_map_of_mem _ hr
    · intro r hr
      refine ⟨applyUpdate news_id status rc tm r, ?_, ?_⟩
      · rw [update_rows_of_false]
        exact List.mem_map_of_mem _ hr
      · unfold applyUpdate
        by_cases hid : r.id = news_id
        · rw [if_pos hid]
          refine ⟨rfl, rfl, rfl, rfl, rfl, rfl, rfl, rfl, rfl, ?_, ?_,
            fun h => absurd h (by simp), fun _ _ => ⟨rfl, ?_, ?_⟩⟩
          · intro h
            rw [h]
          · intro h
            rw [h]
          · cases rc <;> rfl
          · cases tm <;> rfl
        · rw [if_neg hid]
          exact ⟨rfl, rfl, rfl, rfl, rfl, rfl, rfl, rfl, rfl, fun _ => rfl,
            fun _ => rfl, fun _ => rfl, fun _ h => absurd h hid⟩

/-- Witness for C9 at a concrete one-row table: transitioning the row to
processed with a passed rephrased_content keeps every other field. -/
theorem C9_update_status_frame_witness :
    ∀ r ∈ demoStore5.rows,
      ∃ r' ∈ (update_news_status demoStore5 1 .processed
          (some (some "rewritten")) none false).1.rows,
        r'.id = r.id ∧ r'.title = r.title ∧ r'.content = r.content ∧
        r'.url = r.url ∧ r'.source = r.source ∧ r'.city = r.city ∧
        r'.published_date = r.published_date ∧
        r'.created_date = r.created_date ∧
        r'.original_hash = r.original_hash ∧
        ((some (some "rewritten") : Option (Option String)) = none →
          r'.rephrased_content = r.rephrased_content) ∧
        ((none : Option (Option Nat)) = none →
          r'.telegram_message_id = r.telegram_message_id) ∧
        (false = true → r' = r) ∧
        (false = false → r.id = 1 → r'.status = .processed ∧
          r'.rephrased_content =
            (some (some "rewritten") : Option (Option String)).getD
              r.rephrased_content ∧
          r'.telegram_message_id =
            (none : Option (Option Nat)).getD r.telegram_message_id) :=
  (C9_update_status_frame demoStore5 1 .processed (some (some "rewritten"))
    none false).2.2.2.2

theorem save_news_cases (store : Store) (news : NewsItem) (now : Nat)
    (e : Bool) :
    (news_exists store news = true ∨ e = true) ∧
      save_news store news now e = (store, none) ∨
    news_exists store news = false ∧ e = false ∧
      save_news store news now e =
        ({ rows := store.rows ++
            [{ id := store.seq, title := news.title, content := news.content,
               url := news.url, source := news.source, city := news.city,
               original_hash := generate_content_hash news.title news.content,
               rephrased_content := none,
               published_date := news.published_date, created_date := now,
               status := news.status, telegram_message_id := none }],
           seq := store.seq + 1 }, some store.seq) := by
  unfold save_news
  by_cases hdup : news_exists store news = true
  · rw [if_pos hdup]
    exact Or.inl ⟨Or.inl hdup, rfl⟩
  · rw [if_neg hdup]
    cases e with
    | true => exact Or.inl ⟨Or.inr rfl, rfl⟩
    | false =>
      exact Or.inr ⟨Bool.not_eq_true _ ▸ hdup, rfl, rfl⟩

/-- C10: save_news is total over items and atomic on rejection — it returns
None exactly when the item is a duplicate or a storage error occurred, it
returns the table unchanged whenever the item is a duplicate (no row
inserted), and a returned id is fresh: no previously stored row carries it. -/
theorem C10_save_news_total_atomic (store : Store) (news : NewsItem)
    (now : Nat) (e : Bool) (hwf : WFStore store) :
    ((save_news store news now e).2 = none ↔
      news_exists store news = true ∨ e = true) ∧
    (news_exists store news = true → save_news store news now e =
      (store, none)) ∧
    (∀ i, (save_news store news now e).2 = some i →
      i = store.seq ∧ ∀ r ∈ store.rows, r.id ≠ i) := by
  rcases save_news_cases store news now e with ⟨hc, heq⟩ | ⟨hdup, he, heq⟩
  · rw [heq]
    refine ⟨by simp [hc], fun _ => rfl, ?_⟩
    intro i hi
    exact absurd hi (by simp)
  · rw [heq]
    refine ⟨by simp [hdup, he], ?_, ?_⟩
    · intro hcon
      rw [hcon] at hdup
      exact absurd hdup (by simp)
    · intro i hi
      have hip : i = store.seq := by
        simpa using hi.symm
      refine ⟨hip, ?_⟩
      intro r hr
      rw [hip]
      exact Nat.ne_of_lt (hwf.1 r hr)

/-- Witness for C10: saving an item whose content duplicates the stored row
returns None and leaves the table untouched; saving a fresh item returns the
fresh id 2, which no stored row carries. -/
theorem C10_save_news_total_atomic_witness :
    WFStore demoStore5 ∧
    news_exists demoStore5
      { title := "A first headline", content := "Some body text here",
        url := "", source := "feedB" } = true ∧
    save_news demoStore5
      { title := "A first headline", content := "Some body text here",
        url := "", source := "feedB" } 11 false = (demoStore5, none) :=
  ⟨by decide, by decide,
    (C10_save_news_total_atomic demoStore5
      { title := "A first headline", content := "Some body text here",
        url := "", source := "feedB" } 11 false (by decide)).2.1 (by decide)⟩

-- Lifecycle invariant machinery for C1.

theorem statusLE_refl (s : NewsStatus) : statusLE s s = true := by
  cases s <;> rfl

theorem statusLE_trans {a b c : NewsStatus} (h1 : statusLE a b = true)
    (h2 : statusLE b c = true) : statusLE a c = true := by
  revert h1 h2
  cases a <;> cases b <;> cases c <;> decide

theorem row_eq_of_id_eq {store : Store} (hno : (store.rows.map (fun r => r.id)).Nodup)
    {r r2 : StoredNews} (hr : r ∈ store.rows) (hr2 : r2 ∈ store.rows)
    (h : r.id = r2.id) : r = r2 :=
  List.inj_on_of_nodup_map hno hr hr2 h

theorem storeLE_refl (s : Store) (hwf : WFStore s) : StoreLE s s := by
  refine ⟨le_refl _, ?_, ?_, ?_⟩
  · intro r hr r' hr' hid
    have heq : r = r' := row_eq_of_id_eq hwf.2 hr hr' hid
    subst heq
    exact ⟨statusLE_refl _, fun _ => rfl⟩
  · intro r hr _
    exact hr
  · intro r' hr' _
    exact ⟨r', hr', rfl⟩

theorem storeLE_trans {s t u : Store} (hwf : WFStore s) (h1 : StoreLE s t)
    (h2 : StoreLE t u) : StoreLE s u := by
  refine ⟨le_trans h1.seq_le h2.seq_le, ?_, ?_, ?_⟩
  · intro r hr r' hr' hid
    obtain ⟨rt, hrt, hrtid⟩ := h2.no_resurrect r' hr'
      (lt_of_lt_of_le (hid ▸ hwf.1 r hr) h1.seq_le)
    have m1 := h1.status_mono r hr rt hrt (by rw [hrtid, ← hid])
    have m2 := h2.status_mono rt hrt r' hr' hrtid
    refine ⟨statusLE_trans m1.1 m2.1, ?_⟩
    intro hf
    have hrt_eq : rt = r := m1.2 hf
    have hr'_eq : r' = rt := m2.2 (by rw [hrt_eq, hf])
    rw [hr'_eq, hrt_eq]
  · intro r hr hf
    exact h2.failed_kept r (h1.failed_kept r hr hf) hf
  · intro r' hr' hlt
    obtain ⟨rt, hrt, hrtid⟩ := h2.no_resurrect r' hr'
      (lt_of_lt_of_le hlt h1.seq_le)
    obtain ⟨rs, hrs, hrsid⟩ := h1.no_resurrect rt hrt (hrtid ▸ hlt)
    exact ⟨rs, hrs, by rw [hrsid, hrtid]⟩

theorem update_ids (store : Store) (i : Nat) (st : NewsStatus)
    (rc : Option (Option String)) (tm : Option (Option Nat)) (e : Bool) :
    (update_news_status store i st rc tm e).1.rows.map (fun r => r.id) =
      store.rows.map (fun r => r.id) := by
  cases e with
  | true => rfl
  | false =>
    rw [update_rows_of_false, List.map_map]
    exact List.map_congr_left (fun r _ => applyUpdate_id i st rc tm r)

theorem update_WF {store : Store} (i : Nat) (st : NewsStatus)
    (rc : Option (Option String)) (tm : Option (Option Nat)) (e : Bool)
    (hwf : WFStore store) : WFStore (update_news_status store i st rc tm e).1 := by
  constructor
  · intro r' hr'
    rw [update_seq]
    cases e with
    | true => exact hwf.1 r' hr'
    | false =>
      rw [update_rows_of_false] at hr'
      rcases List.mem_map.1 hr' with ⟨r, hr, hmap⟩
      rw [← hmap, applyUpdate_id]
      exact hwf.1 r hr
  · rw [update_ids]
    exact hwf.2

theorem update_mem_of_ne {store : Store} {i : Nat} {st : NewsStatus}
    {rc : Option (Option String)} {tm : Option (Option Nat)} {e : Bool}
    {r' : StoredNews} (hr' : r' ∈ (update_news_status store i st rc tm e).1.rows)
    (hne : r'.id ≠ i) : r' ∈ store.rows := by
  cases e with
  | true => exact hr'
  | false =>
    rw [update_rows_of_false] at hr'
    rcases List.mem_map.1 hr' with ⟨r, hr, hmap⟩
    have hid : r.id ≠ i := fun hcon =>
      hne (by rw [← hmap, applyUpdate_id, hcon])
    rw [← hmap, applyUpdate_of_ne _ _ _ _ _ hid]
    exact hr

theorem update_status_at {store : Store} {i : Nat} {st : NewsStatus}
    {rc : Option (Option String)} {tm : Option (Option Nat)} {e : Bool}
    {r' : StoredNews} (hr' : r' ∈ (update_news_status store i st rc tm e).1.rows)
    (hid : r'.id = i) :
    (e = false ∧ r'.status = st) ∨ (e = true ∧ r' ∈ store.rows) := by
  cases e with
  | true => exact Or.inr ⟨rfl, hr'⟩
  | false =>
    left
    refine ⟨rfl, ?_⟩
    rw [update_rows_of_false] at hr'
    rcases List.mem_map.1 hr' with ⟨r, hr, hmap⟩
    by_cases hcase : r.id = i
    · rw [← hmap]
      unfold applyUpdate
      rw [if_pos hcase]
    · exfalso
      apply hcase
      rw [← hmap, applyUpdate_id] at hid
      exact hid

theorem update_storele {store : Store} (i : Nat) (st : NewsStatus)
    (rc : Option (Option String)) (tm : Option (Option Nat)) (e : Bool)
    (hwf : WFStore store)
    (hpre : ∀ r ∈ store.rows, r.id = i →
      statusLE r.status st = true ∧ r.status ≠ .failed) :
    StoreLE store (update_news_status store i st rc tm e).1 := by
  cases e with
  | true => exact storeLE_refl store hwf
  | false =>
    refine ⟨by rw [update_seq], ?_, ?_, ?_⟩
    · intro r hr r' hr' hid
      rw [update_rows_of_false] at hr'
      rcases List.mem_map.1 hr' with ⟨r2, hr2, hmap⟩
      have hid2 : r.id = r2.id := by
        rw [hid, ← hmap, applyUpdate_id]
      have heq : r = r2 := row_eq_of_id_eq hwf.2 hr hr2 hid2
      subst heq
      rw [← hmap]
      unfold applyUpdate
      by_cases hcase : r.id = i
      · rw [if_pos hcase]
        exact ⟨(hpre r hr hcase).1, fun hf => absurd hf (hpre r hr hcase).2⟩
      · rw [if_neg hcase]
        exact ⟨statusLE_refl _, fun _ => rfl⟩
    · intro r hr hf
      have hne : r.id ≠ i := fun hcon => (hpre r hr hcon).2 hf
      rw [update_rows_of_false]
      have : applyUpdate i st rc tm r = r := applyUpdate_of_ne _ _ _ _ _ hne
      rw [← this]
      exact List.mem_map_of_mem _ hr
    · intro r' hr' _
      rw [update_rows_of_false] at hr'
      rcases List.mem_map.1 hr' with ⟨r2, hr2, hmap⟩
      exact ⟨r2, hr2, by rw [← hmap, applyUpdate_id]⟩

theorem save_WF {store : Store} (news : NewsItem) (now : Nat) (e : Bool)
    (hwf : WFStore store) : WFStore (save_news store news now e).1 := by
  rcases save_news_cases store news now e with ⟨_, heq⟩ | ⟨_, _, heq⟩
  · rw [heq]
    exact hwf
  · rw [heq]
    constructor
    · intro r hr
      rcases List.mem_append.1 hr with hl | hrr
      · exact lt_trans (hwf.1 r hl) (Nat.lt_succ_self _)
      · rw [List.mem_singleton.1 hrr]
        exact Nat.lt_succ_self _
    · rw [List.map_append]
      rw [List.nodup_append]
      refine ⟨hwf.2, List.nodup_singleton _, ?_⟩
      intro x hx hx'
      rw [List.mem_singleton.1 hx'] at hx
      rcases List.mem_map.1 hx with ⟨r, hr, hid⟩
      exact absurd hid (Nat.ne_of_lt (hwf.1 r hr))

theorem save_storele {store : Store} (news : NewsItem) (now : Nat) (e : Bool)
    (hwf : WFStore store) : StoreLE store (save_news store news now e).1 := by
  rcases save_news_cases store news now e with ⟨_, heq⟩ | ⟨_, _, heq⟩
  · rw [heq]
    exact storeLE_refl store hwf
  · rw [heq]
    refine ⟨Nat.le_succ _, ?_, ?_, ?_⟩
    · intro r hr r' hr' hid
      rcases List.mem_append.1 hr' with hl | hrr
      · have heq2 : r = r' := row_eq_of_id_eq hwf.2 hr hl hid
        subst heq2
        exact ⟨statusLE_refl _, fun _ => rfl⟩
      · rw [List.mem_singleton.1 hrr] at hid
        exact absurd hid (Nat.ne_of_lt (hwf.1 r hr))
    · intro r hr _
      exact List.mem_append_left _ hr
    · intro r' hr' hlt
      rcases List.mem_append.1 hr' with hl | hrr
      · exact ⟨r', hl, rfl⟩
      · rw [List.mem_singleton.1 hrr] at hlt
        exact absurd hlt (lt_irrefl _)

theorem cleanup_WF {store : Store} (cutoff : Nat) (e : Bool)
    (hwf : WFStore store) : WFStore (cleanup_old_news store cutoff e).1 := by
  cases e with
  | true => exact hwf
  | false =>
    constructor
    · intro r hr
      exact hwf.1 r (List.mem_of_mem_filter hr)
    · exact hwf.2.sublist ((List.filter_sublist _).map _)

theorem cleanup_storele {store : Store} (cutoff : Nat) (e : Bool)
    (hwf : WFStore store) : StoreLE store (cleanup_old_news store cutoff e).1 := by
  cases e with
  | true => exact storeLE_refl store hwf
  | false =>
    refine ⟨le_refl _, ?_, ?_, ?_⟩
    · intro r hr r' hr' hid
      have heq : r = r' := row_eq_of_id_eq hwf.2 hr (List.mem_of_mem_filter hr') hid
      subst heq
      exact ⟨statusLE_refl _, fun _ => rfl⟩
    · intro r hr hf
      refine List.mem_filter.2 ⟨hr, ?_⟩
      simp [hf]
    · intro r' hr' _
      exact ⟨r', List.mem_of_mem_filter hr', rfl⟩

theorem get_news_by_status_mem {store : Store} {status : NewsStatus}
    {limit : Nat} {x : StoredNews}
    (hx : x ∈ get_news_by_status store status limit) :
    x ∈ store.rows ∧ x.status = status := by
  unfold get_news_by_status at hx
  have hf : x ∈ store.rows.filter (fun r => r.status = status) :=
    List.take_subset _ _ hx
  rw [List.mem_filter] at hf
  exact ⟨hf.1, by simpa using hf.2⟩

theorem get_news_by_status_ids_nodup (store : Store) (status : NewsStatus)
    (limit : Nat) (hwf : WFStore store) :
    ((get_news_by_status store status limit).map (fun r => r.id)).Nodup := by
  apply hwf.2.sublist
  apply List.Sublist.map
  unfold get_news_by_status
  exact (List.take_sublist _ _).trans (List.filter_sublist _)

theorem proc_one_WF (store : Store) (i : Nat) (o : ProcOracle)
    (hwf : WFStore store) : WFStore (process_one store i o).1 := by
  unfold process_one
  rcases o with ⟨res, pr, e1, e2⟩
  cases res with
  | error u => exact update_WF _ _ _ _ _ hwf
  | ok r =>
    dsimp only
    by_cases ht : truthyOpt r
    · rw [if_pos ht]
      cases pr with
      | true => exact update_WF _ _ _ _ _ (update_WF _ _ _ _ _ hwf)
      | false => exact update_WF _ _ _ _ _ hwf
    · rw [if_neg ht]
      exact update_WF _ _ _ _ _ hwf

theorem proc_one_untouched {store : Store} {i : Nat} {o : ProcOracle}
    {r' : StoredNews} (hr' : r' ∈ (process_one store i o).1.rows)
    (hne : r'.id ≠ i) : r' ∈ store.rows := by
  unfold process_one at hr'
  rcases o with ⟨res, pr, e1, e2⟩
  cases res with
  | error u => exact update_mem_of_ne hr' hne
  | ok r =>
    dsimp only at hr'
    by_cases ht : truthyOpt r
    · rw [if_pos ht] at hr'
      cases pr with
      | true => exact update_mem_of_ne (update_mem_of_ne hr' hne) hne
      | false => exact update_mem_of_ne hr' hne
    · rw [if_neg ht] at hr'
      exact update_mem_of_ne hr' hne

theorem proc_one_storele (store : Store) (i : Nat) (o : ProcOracle)
    (hwf : WFStore store)
    (hpre : ∀ r ∈ store.rows, r.id = i → r.status = .parsed) :
    StoreLE store (process_one store i o).1 := by
  have hfail : ∀ e1, StoreLE store
      (update_news_status store i .failed none none e1).1 := fun e1 =>
    update_storele i .failed none none e1 hwf
      (fun r hr hid => by rw [hpre r hr hid]; exact ⟨rfl, by simp⟩)
  unfold process_one
  rcases o with ⟨res, pr, e1, e2⟩
  cases res with
  | error u => exact hfail e1
  | ok r =>
    dsimp only
    by_cases ht : truthyOpt r
    · rw [if_pos ht]
      have hle1 : StoreLE store
          (update_news_status store i .processed (some r) none e1).1 :=
        update_storele i .processed (some r) none e1 hwf
          (fun q hq hid => by rw [hpre q hq hid]; exact ⟨rfl, by simp⟩)
      have hwf1 : WFStore (update_news_status store i .processed (some r) none e1).1 :=
        update_WF _ _ _ _ _ hwf
      cases pr with
      | true =>
        refine storeLE_trans hwf hle1 ?_
        apply update_storele i .failed none none e2 hwf1
        intro q hq hid
        rcases update_status_at hq hid with ⟨_, hst⟩ | ⟨_, hmem⟩
        · rw [hst]
          exact ⟨rfl, by simp⟩
        · rw [hpre q hmem hid]
          exact ⟨rfl, by simp⟩
      | false => exact hle1
    · rw [if_neg ht]
      exact hfail e1

theorem process_fold_wf_le (oracle : Nat → ProcOracle) (ids : List Nat) :
    ∀ (s0 : Store) (c0 : Nat), WFStore s0 → ids.Nodup →
    (∀ i ∈ ids, ∀ r ∈ s0.rows, r.id = i → r.status = .parsed) →
    WFStore (ids.foldl
      (fun acc i =>
        let st := process_one acc.1 i (oracle i)
        (st.1, acc.2 + st.2)) (s0, c0)).1 ∧
    StoreLE s0 (ids.foldl
      (fun acc i =>
        let st := process_one acc.1 i (oracle i)
        (st.1, acc.2 + st.2)) (s0, c0)).1 := by
  induction ids with
  | nil =>
    intro s0 c0 hwf _ _
    exact ⟨hwf, storeLE_refl s0 hwf⟩
  | cons i rest ih =>
    intro s0 c0 hwf hnd hpre
    rw [List.foldl_cons]
    have hwf1 : WFStore (process_one s0 i (oracle i)).1 :=
      proc_one_WF _ _ _ hwf
    have hle1 : StoreLE s0 (process_one s0 i (oracle i)).1 :=
      proc_one_storele _ _ _ hwf
        (fun r hr hid => hpre i (List.mem_cons_self i rest) r hr hid)
    have hrest : ∀ j ∈ rest, ∀ r ∈ (process_one s0 i (oracle i)).1.rows,
        r.id = j → r.status = .parsed := by
      intro j hj r hr hid
      have hji : j ≠ i := by
        intro hcon
        exact (List.nodup_cons.1 hnd).1 (hcon ▸ hj)
      exact hpre j (List.mem_cons_of_mem i hj) r
        (proc_one_untouched hr (by rw [hid]; exact hji)) hid
    obtain ⟨hwf2, hle2⟩ := ih (process_one s0 i (oracle i)).1
      (c0 + (process_one s0 i (oracle i)).2) hwf1 (List.nodup_cons.1 hnd).2
      hrest
    exact ⟨hwf2, storeLE_trans hwf hle1 hle2⟩

theorem process_phase_wf_le (store : Store) (mpr : Nat)
    (oracle : Nat → ProcOracle) (tr : Bool) (hwf : WFStore store) :
    WFStore (process_news_content store mpr oracle tr).1 ∧
    StoreLE store (process_news_content store mpr oracle tr).1 := by
  cases tr with
  | true => exact ⟨hwf, storeLE_refl store hwf⟩
  | false =>
    unfold process_news_content
    rw [if_neg (by simp)]
    apply process_fold_wf_le oracle
      ((get_news_by_status store .parsed mpr).map (fun r => r.id)) store 0 hwf
    · exact get_news_by_status_ids_nodup store .parsed mpr hwf
    · intro i hi r hr hid
      rcases List.mem_map.1 hi with ⟨q, hq, hqid⟩
      obtain ⟨hqmem, hqst⟩ := get_news_by_status_mem hq
      have : r = q := row_eq_of_id_eq hwf.2 hr hqmem (by rw [hid, ← hqid])
      rw [this]
      exact hqst

theorem parse_save_fold_wf_le (now : Nat → Nat) (err : Nat → Bool)
    (l : List (Nat × NewsItem)) :
    ∀ (s0 : Store) (c0 : Nat), WFStore s0 →
    WFStore (l.foldl
      (fun acc p =>
        let sv := save_news acc.1 p.2 (now p.1) (err p.1)
        (sv.1, acc.2 + (if sv.2.isSome then 1 else 0))) (s0, c0)).1 ∧
    StoreLE s0 (l.foldl
      (fun acc p =>
        let sv := save_news acc.1 p.2 (now p.1) (err p.1)
        (sv.1, acc.2 + (if sv.2.isSome then 1 else 0))) (s0, c0)).1 := by
  induction l with
  | nil =>
    intro s0 c0 hwf
    exact ⟨hwf, storeLE_refl s0 hwf⟩
  | cons p rest ih =>
    intro s0 c0 hwf
    rw [List.foldl_cons]
    have hwf1 : WFStore (save_news s0 p.2 (now p.1) (err p.1)).1 :=
      save_WF _ _ _ hwf
    obtain ⟨hwf2, hle2⟩ := ih (save_news s0 p.2 (now p.1) (err p.1)).1
      (c0 + (if (save_news s0 p.2 (now p.1) (err p.1)).2.isSome then 1 else 0))
      hwf1
    exact ⟨hwf2, storeLE_trans hwf (save_storele _ _ _ hwf) hle2⟩

theorem parse_save_phase_wf_le (store : Store) (items : List NewsItem)
    (now : Nat → Nat) (err : Nat → Bool) (tr : Bool) (hwf : WFStore store) :
    WFStore (parse_and_save_news store items now err tr).1 ∧
    StoreLE store (parse_and_save_news store items now err tr).1 := by
  cases tr with
  | true => exact ⟨hwf, storeLE_refl store hwf⟩
  | false =>
    unfold parse_and_save_news
    rw [if_neg (by simp)]
    exact parse_save_fold_wf_le now err items.enum store 0 hwf

theorem send_fold_wf_le (uerr : Nat → Bool)
    (rs : List (Nat × Option Nat × Bool)) :
    ∀ (s0 : Store) (c0 : Nat), WFStore s0 →
    (rs.map (fun r => r.1)).Nodup →
    (∀ t ∈ rs, ∀ r ∈ s0.rows, r.id = t.1 → r.status = .processed) →
    WFStore (rs.foldl
      (fun acc r =>
        if r.2.2 then
          ((update_news_status acc.1 r.1 .sent none (some r.2.1)
              (uerr r.1)).1, acc.2 + 1)
        else
          ((update_news_status acc.1 r.1 .failed none none
              (uerr r.1)).1, acc.2)) (s0, c0)).1 ∧
    StoreLE s0 (rs.foldl
      (fun acc r =>
        if r.2.2 then
          ((update_news_status acc.1 r.1 .sent none (some r.2.1)
              (uerr r.1)).1, acc.2 + 1)
        else
          ((update_news_status acc.1 r.1 .failed none none
              (uerr r.1)).1, acc.2)) (s0, c0)).1 := by
  induction rs with
  | nil =>
    intro s0 c0 hwf _ _
    exact ⟨hwf, storeLE_refl s0 hwf⟩
  | cons t rest ih =>
    intro s0 c0 hwf hnd hpre
    rw [List.foldl_cons]
    have hpre1 : ∀ r ∈ s0.rows, r.id = t.1 → r.status = .processed :=
      fun r hr hid => hpre t (List.mem_cons_self t rest) r hr hid
    have hrest0 : ∀ (s1 : Store),
        (∀ r' ∈ s1.rows, r'.id ≠ t.1 → r' ∈ s0.rows) →
        ∀ j ∈ rest, ∀ r ∈ s1.rows, r.id = j.1 → r.status = .processed := by
      intro s1 huntouched j hj r hr hid
      have hji : j.1 ≠ t.1 := by
        intro hcon
        exact (List.nodup_cons.1 hnd).1 (List.mem_map.2 ⟨j, hj, hcon⟩)
      exact hpre j (List.mem_cons_of_mem t hj) r
        (huntouched r hr (by rw [hid]; exact hji)) hid
    cases hcase : t.2.2 with
    | true =>
      rw [if_pos rfl]
      have hwf1 : WFStore
          (update_news_status s0 t.1 .sent none (some t.2.1) (uerr t.1)).1 :=
        update_WF _ _ _ _ _ hwf
      have hle1 : StoreLE s0
          (update_news_status s0 t.1 .sent none (some t.2.1) (uerr t.1)).1 :=
        update_storele _ _ _ _ _ hwf
          (fun r hr hid => by rw [hpre1 r hr hid]; exact ⟨rfl, by simp⟩)
      obtain ⟨hwf2, hle2⟩ := ih
        (update_news_status s0 t.1 .sent none (some t.2.1) (uerr t.1)).1
        (c0 + 1) hwf1 (List.nodup_cons.1 hnd).2
        (hrest0 _ (fun r' hr' hne => update_mem_of_ne hr' hne))
      exact ⟨hwf2, storeLE_trans hwf hle1 hle2⟩
    | false =>
      rw [if_neg (by decide)]
      have hwf1 : WFStore
          (update_news_status s0 t.1 .failed none none (uerr t.1)).1 :=
        update_WF _ _ _ _ _ hwf
      have hle1 : StoreLE s0
          (update_news_status s0 t.1 .failed none none (uerr t.1)).1 :=
        update_storele _ _ _ _ _ hwf
          (fun r hr hid => by rw [hpre1 r hr hid]; exact ⟨rfl, by simp⟩)
      obtain ⟨hwf2, hle2⟩ := ih
        (update_news_status s0 t.1 .failed none none (uerr t.1)).1
        c0 hwf1 (List.nodup_cons.1 hnd).2
        (hrest0 _ (fun r' hr' hne => update_mem_of_ne hr' hne))
      exact ⟨hwf2, storeLE_trans hwf hle1 hle2⟩

theorem send_inputs_processed (store : Store)
    {t1 : Nat}
    (ht : t1 ∈ (((get_news_by_status store .processed 5).filter
      (fun r => truthyOpt r.rephrased_content)).map
        (fun r => (r.id, r.rephrased_content.getD ""))).map (fun p => p.1))
    (hwf : WFStore store) :
    ∀ r ∈ store.rows, r.id = t1 → r.status = .processed := by
  intro r hr hid
  rw [List.map_map] at ht
  rcases List.mem_map.1 ht with ⟨q, hq, hqid⟩
  have hqready : q ∈ get_news_by_status store .processed 5 :=
    List.mem_of_mem_filter hq
  obtain ⟨hqmem, hqst⟩ := get_news_by_status_mem hqready
  have : r = q := row_eq_of_id_eq hwf.2 hr hqmem (by rw [hid, ← hqid]; rfl)
  rw [this]
  exact hqst

theorem send_phase_wf_le (store : Store)
    (b : List (Nat × String) → List (Nat × Option Nat × Bool))
    (abort : Option Nat) (uerr : Nat → Bool) (tr : Bool)
    (hb : GoodBroadcaster b) (hwf : WFStore store) :
    WFStore (send_notifications store b abort uerr tr).1 ∧
    StoreLE store (send_notifications store b abort uerr tr).1 := by
  cases tr with
  | true => exact ⟨hwf, storeLE_refl store hwf⟩
  | false =>
    unfold send_notifications
    rw [if_neg (by simp)]
    dsimp only
    by_cases hemp : (((get_news_by_status store .processed 5).filter
        (fun r => truthyOpt r.rephrased_content)).map
        (fun r => (r.id, r.rephrased_content.getD ""))).isEmpty = true
    · rw [if_pos hemp]
      exact ⟨hwf, storeLE_refl store hwf⟩
    · rw [if_neg hemp]
      have hcontract := hb (((get_news_by_status store .processed 5).filter
        (fun r => truthyOpt r.rephrased_content)).map
        (fun r => (r.id, r.rephrased_content.getD "")))
      cases abort with
      | none =>
        dsimp only
        apply send_fold_wf_le uerr _ store 0 hwf hcontract.1
        intro t ht
        exact send_inputs_processed store (hcontract.2 t ht) hwf
      | some k =>
        dsimp only
        refine send_fold_wf_le uerr _ store 0 hwf ?_ ?_
        · rw [List.map_take]
          exact hcontract.1.sublist (List.take_sublist _ _)
        · intro t ht
          exact send_inputs_processed store
            (hcontract.2 t (List.take_subset _ _ ht)) hwf

theorem cycle_step_wf_le {s t : Store} (hwf : WFStore s) (h : CycleStep s t) :
    WFStore t ∧ StoreLE s t := by
  cases h with
  | parseSave items now err tr =>
    exact parse_save_phase_wf_le s items now err tr hwf
  | process mpr oracle tr =>
    exact process_phase_wf_le s mpr oracle tr hwf
  | send b abort uerr tr hb =>
    exact send_phase_wf_le s b abort uerr tr hb hwf
  | cleanup cutoff err =>
    exact ⟨cleanup_WF cutoff err hwf, cleanup_storele cutoff err hwf⟩

theorem cycle_chain_wf_le {s t : Store} (hwf : WFStore s)
    (h : Relation.ReflTransGen CycleStep s t) : WFStore t ∧ StoreLE s t := by
  induction h with
  | refl => exact ⟨hwf, storeLE_refl s hwf⟩
  | tail _ hstep ih =>
    obtain ⟨hwfb, hleb⟩ := ih
    obtain ⟨hwfc, hlec⟩ := cycle_step_wf_le hwfb hstep
    exact ⟨hwfc, storeLE_trans hwf hleb hlec⟩

/-- C1: along every sequence of repository-mutating operations issued by the
pipeline (saves of parsed items, content-processing updates, notification
updates under the broadcaster contract, cleanups), no stored item's status
ever regresses in the lifecycle order parsed (INGESTED), processed
(TRANSFORMED), sent (DELIVERED); an item once failed stays failed and
untouched forever, and is never selected again for transformation or
delivery, since the transformation stage reads only rows with status parsed
and the delivery stage reads only rows with status processed. -/
theorem C1_status_lifecycle_monotone (s t : Store) (hwf : WFStore s)
    (h : Relation.ReflTransGen CycleStep s t) :
    (∀ r ∈ s.rows, ∀ r' ∈ t.rows, r.id = r'.id →
      statusLE r.status r'.status = true) ∧
    (∀ r ∈ s.rows, r.status = .failed →
      r ∈ t.rows ∧ (∀ r' ∈ t.rows, r.id = r'.id → r' = r) ∧
      ∀ lim, r ∉ get_news_by_status t .parsed lim ∧
        r ∉ get_news_by_status t .processed lim) ∧
    (∀ (u : Store) (lim : Nat),
      (∀ x ∈ get_news_by_status u .parsed lim, x.status = .parsed) ∧
      (∀ x ∈ get_news_by_status u .processed lim, x.status = .processed)) := by
  obtain ⟨_, hle⟩ := cycle_chain_wf_le hwf h
  refine ⟨?_, ?_, ?_⟩
  · intro r hr r' hr' hid
    exact (hle.status_mono r hr r' hr' hid).1
  · intro r hr hf
    refine ⟨hle.failed_kept r hr hf, ?_, ?_⟩
    · intro r' hr' hid
      exact (hle.status_mono r hr r' hr' hid).2 hf
    · intro lim
      constructor
      · intro hcon
        have := (get_news_by_status_mem hcon).2
        rw [hf] at this
        exact absurd this (by simp)
      · intro hcon
        have := (get_news_by_status_mem hcon).2
        rw [hf] at this
        exact absurd this (by simp)
  · intro u lim
    exact ⟨fun x hx => (get_news_by_status_mem hx).2,
      fun x hx => (get_news_by_status_mem hx).2⟩

/-- Witness for C1 on a concrete table after one cleanup step: statuses did
not regress, the failed row survived untouched and is selected by neither
stage read. -/
theorem C1_status_lifecycle_monotone_witness :
    WFStore demoStoreC1 ∧
    ((∀ r ∈ demoStoreC1.rows,
        ∀ r' ∈ (cleanup_old_news demoStoreC1 3 false).1.rows,
        r.id = r'.id → statusLE r.status r'.status = true) ∧
      (∀ r ∈ demoStoreC1.rows, r.status = .failed →
        r ∈ (cleanup_old_news demoStoreC1 3 false).1.rows ∧
        (∀ r' ∈ (cleanup_old_news demoStoreC1 3 false).1.rows,
          r.id = r'.id → r' = r) ∧
        ∀ lim,
          r ∉ get_news_by_status (cleanup_old_news demoStoreC1 3 false).1
            .parsed lim ∧
          r ∉ get_news_by_status (cleanup_old_news demoStoreC1 3 false).1
            .processed lim) ∧
      (∀ (u : Store) (lim : Nat),
        (∀ x ∈ get_news_by_status u .parsed lim, x.status = .parsed) ∧
        (∀ x ∈ get_news_by_status u .processed lim,
          x.status = .processed))) :=
  ⟨by decide,
    C1_status_lifecycle_monotone demoStoreC1
      (cleanup_old_news demoStoreC1 3 false).1 (by decide)
      (Relation.ReflTransGen.single
        (CycleStep.cleanup demoStoreC1 3 false))⟩

end NewsBot
